import Mathlib

/-!
Verification of the aws-track-agent monitoring and cost-attribution core.

The definitions below are a shallow embedding of the Python source:

* `backend/tools/user_analytics_tools.py` — `aggregate_usage_by_user`,
  `attribute_costs_to_users`;
* `backend/agents/cloudtrail_monitoring_agent.py` — `is_suspicious` and the
  checkpoint handling of `check_cloudtrail_events` / `monitor_continuously`;
* `backend/agents/cost_anomaly_agent.py` — `check_cost_anomalies` (dedup)
  and `handle_cost_anomaly` (severity tiers, alert dispatch);
* `backend/tools/cloudtrail_tools.py` — the error handling of
  `fetch_cloudtrail_logs`.

Modelling conventions: Python dict fields read with `.get(k)` (no default)
become `Option`; fields read with `.get(k, d)` are stored post-default when
the default is what every reader uses.  Python floats are modelled as `ℚ`;
`round(x, 2)` is modelled as exact round-half-to-even at two decimals on `ℚ`.
Timestamps are modelled as integers (seconds); a `datetime.fromisoformat`
call that raises is modelled as the timestamp being `none`.  Python dicts
that the code iterates or returns are modelled as insertion-ordered
association lists, and Python sets as duplicate-free lists built by
insert-if-absent.
-/

/-- Python truthiness of an optional string: `None` and `""` are falsy. -/
def truthyOpt (o : Option String) : Bool :=
  match o with
  | none => false
  | some s => s ≠ ""

/-- Round-half-to-even to an integer, the rounding Python `round` uses. -/
def roundHalfEven (q : ℚ) : ℤ :=
  let f := q.floor
  let r := q - f
  if r < 1/2 then f
  else if 1/2 < r then f + 1
  else if f % 2 = 0 then f else f + 1

/-- Python `round(x, 2)` on the rational model. -/
def round2 (q : ℚ) : ℚ := (roundHalfEven (q * 100) : ℚ) / 100

theorem ratFloor_eq_floor (q : ℚ) : q.floor = ⌊q⌋ := by
  rw [Rat.floor_def', Rat.floor_def]

/-- `round2` is exact on rationals with an exact two-decimal representation. -/
theorem round2_eq_of_mul_100_int (q : ℚ) (k : ℤ) (h : q * 100 = (k : ℚ)) :
    round2 q = q := by
  unfold round2 roundHalfEven
  rw [h, ratFloor_eq_floor]
  have hf : ⌊(k : ℚ)⌋ = k := Int.floor_intCast k
  simp only [hf]
  have hr : (k : ℚ) - ((k : ℤ) : ℚ) = 0 := by norm_num
  rw [hr]
  norm_num
  field_simp
  linarith [h]

/-- Update an insertion-ordered association list at key `k`: apply `f` to the
stored value (seeded with default `d` when the key is absent, appending the
new binding at the end).  Models `defaultdict` access in the Python source. -/
def updAssoc {α : Type} (k : String) (d : α) (f : α → α) :
    List (String × α) → List (String × α)
  | [] => [(k, f d)]
  | (k₂, v) :: rest =>
      if k₂ = k then (k₂, f v) :: rest else (k₂, v) :: updAssoc k d f rest

theorem lookup_updAssoc_self {α : Type} (k : String) (d : α) (f : α → α)
    (m : List (String × α)) :
    List.lookup k (updAssoc k d f m) = some (f (((List.lookup k m).getD d))) := by
  induction m with
  | nil => simp [updAssoc, List.lookup]
  | cons p rest ih =>
      obtain ⟨k₂, v⟩ := p
      by_cases h : k₂ = k
      · subst h
        simp [updAssoc, List.lookup]
      · have hb : (k == k₂) = false := beq_eq_false_iff_ne.mpr (Ne.symm h)
        simp [updAssoc, h, List.lookup, hb, ih]

theorem lookup_updAssoc_ne {α : Type} (k k₁ : String) (d : α) (f : α → α)
    (m : List (String × α)) (hne : k₁ ≠ k) :
    List.lookup k₁ (updAssoc k d f m) = List.lookup k₁ m := by
  induction m with
  | nil =>
      have hb : (k₁ == k) = false := beq_eq_false_iff_ne.mpr hne
      simp [updAssoc, List.lookup, hb]
  | cons p rest ih =>
      obtain ⟨k₂, v⟩ := p
      by_cases h : k₂ = k
      · subst h
        have hb : (k₁ == k₂) = false := beq_eq_false_iff_ne.mpr hne
        simp [updAssoc, List.lookup, hb]
      · simp only [updAssoc, if_neg h, List.lookup]
        by_cases h₁ : k₁ = k₂
        · subst h₁; simp
        · have hb : (k₁ == k₂) = false := beq_eq_false_iff_ne.mpr h₁
          simp [hb, ih]

/-- Python `set.add`: append the element when absent, modelled on lists. -/
def insertSet (s : List String) (x : String) : List String :=
  if x ∈ s then s else s ++ [x]

/-- `leadsWith pat text`: `pat` starts `text` (character lists). -/
def leadsWith : List Char → List Char → Bool
  | [], _ => true
  | _ :: _, [] => false
  | a :: as, b :: bs => a = b && leadsWith as bs

/-- `occursIn pat text`: `pat` occurs contiguously inside `text`. -/
def occursIn (pat : List Char) : List Char → Bool
  | [] => leadsWith pat []
  | c :: cs => leadsWith pat (c :: cs) || occursIn pat cs

/-- Python `pat in s` substring test on the character-list model. -/
def strContains (s pat : String) : Bool := occursIn pat.data s.data

/-- One entry of a CloudTrail event's `resources` list
(`user_analytics_tools.py`, `attribute_costs_to_users`). -/
structure EventResource where
  resourceName : Option String
  resourceARN : Option String
deriving DecidableEq

/-- A parsed CloudTrail event, as consumed by `aggregate_usage_by_user` and
`attribute_costs_to_users`.  String fields the code reads with
`.get(key, "")` are stored post-default; fields read without a default (or
whose default matters to truthiness) are `Option`.  `event_time` is the
parse result of `datetime.fromisoformat` on `event.get("event_time")`:
`none` when the field is missing or unparseable, `some t` (seconds) when it
parses.  `responseInstanceIds` are the `instanceId` values found under
`response_elements["instancesSet"]["items"]`. -/
structure Event where
  userName : Option String
  userArn : Option String
  read_only : Option Bool
  event_name : String
  event_source : String
  aws_region : String
  user_agent : String
  error_code : Option String
  error_message : Option String
  event_time : Option Int
  resources : List EventResource
  responseInstanceIds : List String
deriving DecidableEq

/-- `user_identity.get("userName") or user_identity.get("arn", "Unknown")`,
then the skip guard `if not user_name or user_name == "Unknown": continue`.
Returns `none` when the event is skipped. -/
def resolveUserKey (e : Event) : Option String :=
  let name :=
    match e.userName with
    | some s => if s ≠ "" then s else e.userArn.getD "Unknown"
    | none => e.userArn.getD "Unknown"
  if name = "" || name = "Unknown" then none else some name

/-- The `high_risk_events` list of `aggregate_usage_by_user`
(`user_analytics_tools.py`, lines 42-45). -/
def high_risk_events_analytics : List String :=
  ["DeleteBucket", "TerminateInstances", "DeleteDBInstance",
   "DeleteUser", "PutBucketPolicy", "AttachRolePolicy"]

/-- `event_source.split(".")[0] if "." in event_source else event_source`:
the first dot-separated segment (characters before the first `.`) when the
string contains a dot, the whole string otherwise. -/
def serviceOf (event_source : String) : String :=
  if strContains event_source "." then
    String.mk (event_source.data.takeWhile (fun c => c ≠ '.'))
  else event_source

/-- Per-user accumulator of `aggregate_usage_by_user`.  Python sets are
modelled as duplicate-free lists, the `event_types` defaultdict as an
association list.  `activity_score` is filled by `finalizeMetrics`. -/
structure RawMetrics where
  user_name : String := ""
  user_arn : String := ""
  total_events : Nat := 0
  read_events : Nat := 0
  write_events : Nat := 0
  high_risk_events : Nat := 0
  services_used : List String := []
  regions_used : List String := []
  first_seen : Option Int := none
  last_seen : Option Int := none
  event_types : List (String × Nat) := []
  error_count : Nat := 0
  activity_score : ℚ := 0
deriving DecidableEq

/-- The count/set/error part of the per-event loop of
`aggregate_usage_by_user` (lines 55-86), applied to one user's accumulator. -/
def updateCounts (key : String) (e : Event) (m : RawMetrics) : RawMetrics :=
  let m1 := { m with user_name := key, user_arn := e.userArn.getD "",
                     total_events := m.total_events + 1 }
  let m2 := if e.read_only.getD true
            then { m1 with read_events := m1.read_events + 1 }
            else { m1 with write_events := m1.write_events + 1 }
  let m3 := if e.event_name ∈ high_risk_events_analytics
            then { m2 with high_risk_events := m2.high_risk_events + 1 }
            else m2
  let m4 := if e.event_source ≠ ""
            then { m3 with services_used :=
                     insertSet m3.services_used (serviceOf e.event_source) }
            else m3
  let m5 := if e.aws_region ≠ ""
            then { m4 with regions_used := insertSet m4.regions_used e.aws_region }
            else m4
  let m6 := { m5 with event_types := updAssoc e.event_name 0 (· + 1) m5.event_types }
  if truthyOpt e.error_code || truthyOpt e.error_message
  then { m6 with error_count := m6.error_count + 1 }
  else m6

/-- The timestamp-tracking part of the per-event loop (lines 88-98):
update first-seen/last-seen from the event's parsed timestamp, if any. -/
def updateSeen (e : Event) (m : RawMetrics) : RawMetrics :=
  match e.event_time with
  | none => m
  | some t =>
      let m8 := match m.first_seen with
                | none => { m with first_seen := some t }
                | some f => if t < f then { m with first_seen := some t } else m
      match m8.last_seen with
      | none => { m8 with last_seen := some t }
      | some l => if l < t then { m8 with last_seen := some t } else m8

/-- The body of the per-event loop of `aggregate_usage_by_user` for a single
event, applied to that user's accumulator. -/
def updateUserMetrics (key : String) (e : Event) (m : RawMetrics) : RawMetrics :=
  updateSeen e (updateCounts key e m)

/-- One iteration of the event loop: resolve the user key (skipping events
with no usable identity) and update that user's accumulator in the
`user_metrics` defaultdict. -/
def aggregateStep (state : List (String × RawMetrics)) (e : Event) :
    List (String × RawMetrics) :=
  match resolveUserKey e with
  | none => state
  | some key => updAssoc key {} (updateUserMetrics key e) state

/-- `(datetime.now(tz) - last_seen).days`: floor of the difference in days,
with timestamps in seconds. -/
def daysBetween (now t : Int) : Int := Int.fdiv (now - t) 86400

/-- `recency_bonus = max(0, 10 - days_since_last)` when a last-seen
timestamp exists, and no bonus otherwise. -/
def recencyBonus (now : Int) (lastSeen : Option Int) : Int :=
  match lastSeen with
  | none => 0
  | some t => max 0 (10 - daysBetween now t)

/-- The score-and-convert pass at the end of `aggregate_usage_by_user`
(lines 100-130): weighted activity score plus recency bonus, rounded to two
decimals.  (The set-to-list and datetime-to-string serialization steps are
identities in this model.) -/
def finalizeMetrics (now : Int) (m : RawMetrics) : RawMetrics :=
  let base : ℚ := (m.total_events : ℚ) * 1 + (m.write_events : ℚ) * 2 +
                  (m.high_risk_events : ℚ) * 5 - (m.error_count : ℚ) * (1/2)
  let score : ℚ :=
    match m.last_seen with
    | none => base
    | some t => base + ((max 0 (10 - daysBetween now t) : ℤ) : ℚ)
  { m with activity_score := round2 score }

/-- `aggregate_usage_by_user` (`user_analytics_tools.py`, lines 9-132):
fold the event batch into per-user accumulators, then compute each user's
activity score at time `now`. -/
def aggregate_usage_by_user (events : List Event) (now : Int) :
    List (String × RawMetrics) :=
  (events.foldl aggregateStep []).map (fun p => (p.1, finalizeMetrics now p.2))

theorem lookup_map_snd {α β : Type} (f : α → β) (u : String)
    (l : List (String × α)) :
    List.lookup u (l.map (fun p => (p.1, f p.2))) = (List.lookup u l).map f := by
  induction l with
  | nil => rfl
  | cons p rest ih =>
      obtain ⟨k, v⟩ := p
      by_cases h : u = k
      · subst h; simp [List.lookup]
      · have hb : (u == k) = false := beq_eq_false_iff_ne.mpr h
        simp [List.lookup, hb, ih]

theorem finalizeMetrics_total (now : Int) (m : RawMetrics) :
    (finalizeMetrics now m).total_events = m.total_events := rfl

theorem finalizeMetrics_write (now : Int) (m : RawMetrics) :
    (finalizeMetrics now m).write_events = m.write_events := rfl

theorem finalizeMetrics_high_risk (now : Int) (m : RawMetrics) :
    (finalizeMetrics now m).high_risk_events = m.high_risk_events := rfl

theorem finalizeMetrics_errors (now : Int) (m : RawMetrics) :
    (finalizeMetrics now m).error_count = m.error_count := rfl

theorem finalizeMetrics_last_seen (now : Int) (m : RawMetrics) :
    (finalizeMetrics now m).last_seen = m.last_seen := rfl

theorem finalizeMetrics_score (now : Int) (m : RawMetrics) :
    (finalizeMetrics now m).activity_score =
      round2 ((m.total_events : ℚ) * 1 + (m.write_events : ℚ) * 2 +
        (m.high_risk_events : ℚ) * 5 - (m.error_count : ℚ) * (1/2) +
        ((recencyBonus now m.last_seen : ℤ) : ℚ)) := by
  cases hls : m.last_seen <;> simp [finalizeMetrics, recencyBonus, hls]

/-- Claim C2: for every batch of activity records and every user appearing in
the result of `aggregate_usage_by_user`, the activity score equals
`total_events*1 + write_events*2 + high_risk_events*5 - error_count*0.5 +
recency_bonus`, where `recency_bonus = max(0, 10 - days_since_last_seen)`
evaluated at the time `now` the score is computed, and `0` when the user has
no parseable last-seen timestamp. -/
theorem aggregate_activity_score_formula (events : List Event) (now : Int)
    (u : String) (m : RawMetrics)
    (h : List.lookup u (aggregate_usage_by_user events now) = some m) :
    m.activity_score =
      (m.total_events : ℚ) * 1 + (m.write_events : ℚ) * 2 +
      (m.high_risk_events : ℚ) * 5 - (m.error_count : ℚ) * (1/2) +
      ((recencyBonus now m.last_seen : ℤ) : ℚ) := by
  unfold aggregate_usage_by_user at h
  rw [lookup_map_snd] at h
  cases hl : List.lookup u (events.foldl aggregateStep []) with
  | none => rw [hl] at h; exact absurd h (by simp)
  | some m₀ =>
      rw [hl] at h
      have hm : finalizeMetrics now m₀ = m := by simpa using h
      subst hm
      rw [finalizeMetrics_score, finalizeMetrics_total, finalizeMetrics_write,
          finalizeMetrics_high_risk, finalizeMetrics_errors,
          finalizeMetrics_last_seen]
      apply round2_eq_of_mul_100_int _
        (100 * (m₀.total_events : ℤ) + 200 * (m₀.write_events : ℤ) +
         500 * (m₀.high_risk_events : ℤ) - 50 * (m₀.error_count : ℤ) +
         100 * recencyBonus now m₀.last_seen)
      push_cast
      ring

/-- A ten-event batch for the user `alice`: 6 reads, 3 plain writes and one
high-risk write, all error-free and timestamped at instant 0. -/
def mkAliceEvent (name : String) (ro : Bool) : Event :=
  { userName := some "alice", userArn := some "arn:aws:iam::1:user/alice",
    read_only := some ro, event_name := name,
    event_source := "s3.amazonaws.com", aws_region := "us-east-1",
    user_agent := "aws-cli/2.0", error_code := none, error_message := none,
    event_time := some 0, resources := [], responseInstanceIds := [] }

def exAliceEvents : List Event :=
  List.replicate 6 (mkAliceEvent "GetObject" true) ++
  List.replicate 3 (mkAliceEvent "PutObject" false) ++
  [mkAliceEvent "DeleteBucket" false]

/-- Witness for C2 at the concrete batch `exAliceEvents`, scored at time 0:
10 total events, 4 writes, 1 high-risk, 0 errors, last seen now, score 33. -/
theorem aggregate_activity_score_formula_witness :
    ((List.lookup "alice" (aggregate_usage_by_user exAliceEvents 0)).getD
      {}).activity_score = 33 := by
  have h := aggregate_activity_score_formula exAliceEvents 0 "alice"
    ((List.lookup "alice" (aggregate_usage_by_user exAliceEvents 0)).getD {})
    (by with_unfolding_all decide)
  rw [h]
  with_unfolding_all decide

/-- The `high_risk_events` list of `CloudTrailMonitoringAgent.is_suspicious`
(`cloudtrail_monitoring_agent.py`, lines 112-121). -/
def high_risk_events_monitor : List String :=
  ["DeleteBucket", "TerminateInstances", "DeleteDBInstance", "DeleteUser",
   "PutBucketPolicy", "AttachRolePolicy", "CreateAccessKey", "DeleteAccessKey"]

/-- Python `str.lower` on the character-list model. -/
def strLower (s : String) : String := String.mk (s.data.map Char.toLower)

/-- `CloudTrailMonitoringAgent.is_suspicious`
(`cloudtrail_monitoring_agent.py`, lines 109-143): high-risk action name,
or a truthy error code/message, or a user agent containing `bot` or
`scanner` case-insensitively.  (The read-only/management-event branch of
the source is a `pass` with no effect and is omitted.) -/
def is_suspicious (e : Event) : Bool :=
  if e.event_name ∈ high_risk_events_monitor then true
  else if truthyOpt e.error_code || truthyOpt e.error_message then true
  else if strContains (strLower e.user_agent) "bot" ||
          strContains (strLower e.user_agent) "scanner" then true
  else false

theorem truthyOpt_iff (o : Option String) :
    truthyOpt o = true ↔ ∃ s, o = some s ∧ s ≠ "" := by
  cases o <;> simp [truthyOpt]

/-- Claim C3: `is_suspicious` returns true if and only if the record's
action name is in the fixed high-risk set, or it carries a non-empty error
code or non-empty error message, or its user-agent contains `bot` or
`scanner` case-insensitively; records matching none of these are not
suspicious. -/
theorem is_suspicious_characterization (e : Event) :
    is_suspicious e = true ↔
      (e.event_name ∈ high_risk_events_monitor ∨
       (∃ s, e.error_code = some s ∧ s ≠ "") ∨
       (∃ s, e.error_message = some s ∧ s ≠ "") ∨
       strContains (strLower e.user_agent) "bot" = true ∨
       strContains (strLower e.user_agent) "scanner" = true) := by
  rw [← truthyOpt_iff, ← truthyOpt_iff]
  unfold is_suspicious
  by_cases h1 : e.event_name ∈ high_risk_events_monitor <;>
    by_cases h2 : truthyOpt e.error_code = true <;>
    by_cases h3 : truthyOpt e.error_message = true <;>
    by_cases h4 : strContains (strLower e.user_agent) "bot" = true <;>
    by_cases h5 : strContains (strLower e.user_agent) "scanner" = true <;>
    simp [h1, h2, h3, h4, h5]

theorem updateSeen_high_risk (e : Event) (m : RawMetrics) :
    (updateSeen e m).high_risk_events = m.high_risk_events := by
  obtain ⟨un, ua, te, re, we, he, su, ru, fs, ls, et, ec, sc⟩ := m
  unfold updateSeen
  cases e.event_time <;> cases fs <;> cases ls <;> (repeat' split) <;>
    first | rfl | simp_all [apply_ite RawMetrics.high_risk_events]

theorem updateCounts_high_risk (key : String) (e : Event) (m : RawMetrics) :
    (updateCounts key e m).high_risk_events =
      m.high_risk_events +
        (if e.event_name ∈ high_risk_events_analytics then 1 else 0) := by
  unfold updateCounts
  repeat' split
  all_goals simp

theorem updateUserMetrics_high_risk (key : String) (e : Event) (m : RawMetrics) :
    (updateUserMetrics key e m).high_risk_events =
      m.high_risk_events +
        (if e.event_name ∈ high_risk_events_analytics then 1 else 0) := by
  unfold updateUserMetrics
  rw [updateSeen_high_risk, updateCounts_high_risk]

/-- Counterexample to claim C7: a `CreateAccessKey` record satisfies the
classifier's high-risk-action rule (it is classified suspicious and its
action is in the monitor's set), yet the Usage Aggregator does not count it
as a high-risk event — the two high-risk action sets are not equal. -/
theorem high_risk_sets_counterexample :
    is_suspicious (mkAliceEvent "CreateAccessKey" false) = true ∧
    (updateUserMetrics "alice" (mkAliceEvent "CreateAccessKey" false)
      {}).high_risk_events = 0 ∧
    "CreateAccessKey" ∈ high_risk_events_monitor ∧
    "CreateAccessKey" ∉ high_risk_events_analytics := by
  with_unfolding_all decide

/-- Claim C7 (amended): the Usage Aggregator counts a record as high-risk
if and only if its action name is in the aggregator's own 6-element
high-risk set, which is a strict subset of the classifier's set — the
classifier's set is the aggregator's set plus `CreateAccessKey` and
`DeleteAccessKey`; every action in the classifier's set triggers
rule (a) of `is_suspicious`. -/
theorem high_risk_sets_amended :
    (∀ key e m, (updateUserMetrics key e m).high_risk_events =
        m.high_risk_events +
          (if e.event_name ∈ high_risk_events_analytics then 1 else 0)) ∧
    (∀ e : Event, e.event_name ∈ high_risk_events_monitor →
      is_suspicious e = true) ∧
    high_risk_events_monitor =
      high_risk_events_analytics ++ ["CreateAccessKey", "DeleteAccessKey"] := by
  refine ⟨updateUserMetrics_high_risk, ?_, by decide⟩
  intro e h
  unfold is_suspicious
  simp [h]

/-- Witness for the amended C7 at a concrete record: a `DeleteBucket`
record (in both sets) is classified suspicious. -/
theorem high_risk_sets_amended_witness :
    is_suspicious (mkAliceEvent "DeleteBucket" false) = true :=
  high_risk_sets_amended.2.1 (mkAliceEvent "DeleteBucket" false) (by decide)

/-- A cost line item as read by `attribute_costs_to_users` (lines 187-193):
`Amount` via `float(cost_entry.get("Amount", 0))`, `Service`/`Region`
defaulted to `"Unknown"`, `Date` defaulted to `""`, all stored
post-default. -/
structure CostEntry where
  Amount : ℚ
  Service : String
  Region : String
  Date : String
deriving DecidableEq

/-- `resource.get("resourceName") or resource.get("resourceARN", "")`. -/
def resourceKey (r : EventResource) : String :=
  match r.resourceName with
  | some s => if s ≠ "" then s else r.resourceARN.getD ""
  | none => r.resourceARN.getD ""

/-- Fold one event into the per-user resource sets (`user_resources`,
lines 163-184): add each non-empty resource identifier, then each
`ec2:`-prefixed instance id found in the response elements.  A user's set
is only ever created by one of the guarded adds, so every stored set is
non-empty. -/
def addEventResources (ur : List (String × List String)) (e : Event) :
    List (String × List String) :=
  match resolveUserKey e with
  | none => ur
  | some key =>
      let ur1 := e.resources.foldl
        (fun acc r =>
          let arn := resourceKey r
          if arn ≠ "" then updAssoc key [] (fun s => insertSet s arn) acc
          else acc)
        ur
      e.responseInstanceIds.foldl
        (fun acc iid =>
          if iid ≠ "" then
            updAssoc key [] (fun s => insertSet s ("ec2:" ++ iid)) acc
          else acc)
        ur1

/-- The `user_resources` map built from the whole event batch. -/
def userResources (events : List Event) : List (String × List String) :=
  events.foldl addEventResources []

/-- `total_resources = sum(len(resources) for resources in
user_resources.values())` (line 197). -/
def totalResources (ur : List (String × List String)) : Nat :=
  (ur.map (fun p => p.2.length)).sum

/-- Per-user cost accumulator of `attribute_costs_to_users` (lines
152-160), with the defaultdict-valued breakdowns as association lists.
`cost_per_resource` is filled by `finalizeCost`. -/
structure CostAcc where
  user_name : String := ""
  total_cost : ℚ := 0
  service_costs : List (String × ℚ) := []
  region_costs : List (String × ℚ) := []
  cost_by_date : List (String × ℚ) := []
  resource_count : Nat := 0
  cost_per_resource : ℚ := 0
deriving DecidableEq

/-- The per-user body of the cost loop (lines 205-211): accumulate the
user's share into the total and the by-service/by-region/by-date
breakdowns (the date bucket only when the entry has a date), and record
the user's resource count. -/
def addUserCost (key : String) (entry : CostEntry) (userCost : ℚ)
    (resCount : Nat) (c : CostAcc) : CostAcc :=
  let c1 := { c with
    user_name := key,
    total_cost := c.total_cost + userCost,
    service_costs := updAssoc entry.Service 0 (· + userCost) c.service_costs,
    region_costs := updAssoc entry.Region 0 (· + userCost) c.region_costs }
  let c2 := if entry.Date ≠ ""
            then { c1 with
                     cost_by_date := updAssoc entry.Date 0 (· + userCost) c1.cost_by_date }
            else c1
  { c2 with resource_count := resCount }

/-- The per-user iteration of the cost loop (lines 200-211): a user with a
non-empty resource set receives `Amount * len(resources) / total_resources`
into their accumulator (created on first touch, as with the defaultdict). -/
def attributeUserStep (total_resources : Nat) (entry : CostEntry)
    (acc : List (String × CostAcc)) (p : String × List String) :
    List (String × CostAcc) :=
  if 0 < p.2.length then
    let proportion : ℚ := (p.2.length : ℚ) / (total_resources : ℚ)
    let user_cost := entry.Amount * proportion
    updAssoc p.1 {} (addUserCost p.1 entry user_cost p.2.length) acc
  else acc

/-- Distribute one cost line item across the users (lines 187-211): when
the total resource count is positive, every user with a non-empty resource
set receives their proportional share; otherwise the accumulators are
untouched. -/
def attributeEntry (ur : List (String × List String))
    (acc : List (String × CostAcc)) (entry : CostEntry) :
    List (String × CostAcc) :=
  let total_resources := totalResources ur
  if 0 < total_resources then
    ur.foldl (attributeUserStep total_resources entry) acc
  else acc

/-- The final pass of `attribute_costs_to_users` (lines 214-228):
`cost_per_resource = total_cost / resource_count` when the count is
positive, both presented rounded to two decimals. -/
def finalizeCost (c : CostAcc) : CostAcc :=
  let cpr : ℚ := if 0 < c.resource_count
                 then c.total_cost / (c.resource_count : ℚ) else 0
  { c with total_cost := round2 c.total_cost,
           cost_per_resource := round2 cpr }

/-- `attribute_costs_to_users` (`user_analytics_tools.py`, lines 135-230). -/
def attribute_costs_to_users (cost_data : List CostEntry)
    (events : List Event) : List (String × CostAcc) :=
  let ur := userResources events
  (cost_data.foldl (attributeEntry ur) []).map
    (fun p => (p.1, finalizeCost p.2))

theorem foldl_preserves {α β : Type} (P : α → Prop) (g : α → β → α)
    (hg : ∀ a b, P a → P (g a b)) :
    ∀ (l : List β) (a : α), P a → P (l.foldl g a) := by
  intro l
  induction l with
  | nil => intro a h; simpa using h
  | cons b rest ih =>
      intro a h
      simpa using ih (g a b) (hg a b h)

theorem updAssoc_fst {α : Type} (k : String) (d : α) (f : α → α)
    (m : List (String × α)) :
    (updAssoc k d f m).map Prod.fst =
      if k ∈ m.map Prod.fst then m.map Prod.fst
      else m.map Prod.fst ++ [k] := by
  induction m with
  | nil => simp [updAssoc]
  | cons p rest ih =>
      obtain ⟨k₂, v⟩ := p
      by_cases h : k₂ = k
      · subst h; simp [updAssoc]
      · by_cases h₂ : k ∈ rest.map Prod.fst <;>
          simp [updAssoc, h, ih, h₂, List.mem_cons, Ne.symm h]

theorem nodupKeys_updAssoc {α : Type} (k : String) (d : α) (f : α → α)
    (m : List (String × α)) (h : (m.map Prod.fst).Nodup) :
    ((updAssoc k d f m).map Prod.fst).Nodup := by
  rw [updAssoc_fst]
  by_cases hk : k ∈ m.map Prod.fst <;> simp [hk, h, List.nodup_append]

theorem mem_updAssoc_imp {α : Type} (P : α → Prop) (k : String) (d : α)
    (f : α → α) (m : List (String × α))
    (hm : ∀ p ∈ m, P p.2) (hfd : P (f d)) (hf : ∀ v, P v → P (f v)) :
    ∀ p ∈ updAssoc k d f m, P p.2 := by
  induction m with
  | nil =>
      intro p hp
      simp [updAssoc] at hp
      subst hp
      exact hfd
  | cons q rest ih =>
      obtain ⟨k₂, v⟩ := q
      intro p hp
      by_cases h : k₂ = k
      · subst h
        simp [updAssoc] at hp
        rcases hp with hp | hp
        · subst hp
          exact hf v (hm (k₂, v) (List.mem_cons_self _ _))
        · exact hm p (List.mem_cons_of_mem _ hp)
      · simp [updAssoc, h] at hp
        rcases hp with hp | hp
        · subst hp
          exact hm (k₂, v) (List.mem_cons_self _ _)
        · exact ih (fun q hq => hm q (List.mem_cons_of_mem _ hq)) p hp

theorem fst_ne_of_lookup_none {α : Type} (u : String) (l : List (String × α))
    (h : List.lookup u l = none) : ∀ p ∈ l, p.1 ≠ u := by
  induction l with
  | nil => simp
  | cons q rest ih =>
      obtain ⟨k, v⟩ := q
      intro p hp
      by_cases hk : u = k
      · subst hk
        simp [List.lookup] at h
      · have hb : (u == k) = false := beq_eq_false_iff_ne.mpr hk
        simp [List.lookup, hb] at h
        rcases List.mem_cons.mp hp with hp | hp
        · subst hp
          exact fun hh => hk hh.symm
        · obtain ⟨a, b⟩ := p
          exact fun hh => h a b hp hh.symm

theorem lookup_some_imp_mem {α : Type} (u : String) (v : α)
    (l : List (String × α)) (h : List.lookup u l = some v) : (u, v) ∈ l := by
  induction l with
  | nil => simp [List.lookup] at h
  | cons q rest ih =>
      obtain ⟨k, w⟩ := q
      by_cases hk : u = k
      · subst hk
        simp [List.lookup] at h
        simp [h]
      · have hb : (u == k) = false := beq_eq_false_iff_ne.mpr hk
        simp [List.lookup, hb] at h
        exact List.mem_cons_of_mem _ (ih h)

theorem lookup_foldl_congr {α β : Type} (u : String)
    (g : List (String × α) → β → List (String × α)) (l : List β)
    (hg : ∀ acc, ∀ b ∈ l, List.lookup u (g acc b) = List.lookup u acc) :
    ∀ acc, List.lookup u (l.foldl g acc) = List.lookup u acc := by
  induction l with
  | nil => intro acc; simp
  | cons b rest ih =>
      intro acc
      simp only [List.foldl_cons]
      rw [ih (fun acc c hc => hg acc c (List.mem_cons_of_mem _ hc)),
          hg acc b (List.mem_cons_self _ _)]

theorem insertSet_ne_nil (s : List String) (x : String) : insertSet s x ≠ [] := by
  unfold insertSet
  by_cases hx : x ∈ s
  · simp only [if_pos hx]
    exact List.ne_nil_of_mem hx
  · simp [hx]

theorem resInv_updAssoc (key x : String) (ur : List (String × List String))
    (h : (ur.map Prod.fst).Nodup ∧ ∀ p ∈ ur, p.2 ≠ []) :
    ((updAssoc key [] (fun s => insertSet s x) ur).map Prod.fst).Nodup ∧
    ∀ p ∈ updAssoc key [] (fun s => insertSet s x) ur, p.2 ≠ [] :=
  ⟨nodupKeys_updAssoc _ _ _ _ h.1,
   mem_updAssoc_imp (fun v => v ≠ []) _ _ _ _ h.2 (insertSet_ne_nil _ _)
     (fun v _ => insertSet_ne_nil v x)⟩

/-- The `user_resources` map has duplicate-free keys and only non-empty
resource sets: a set is only ever created by a guarded `add`. -/
theorem userResources_inv (events : List Event) :
    ((userResources events).map Prod.fst).Nodup ∧
    ∀ p ∈ userResources events, p.2 ≠ [] := by
  unfold userResources
  refine foldl_preserves
    (fun ur => (ur.map Prod.fst).Nodup ∧ ∀ p ∈ ur, p.2 ≠ [])
    addEventResources ?_ events [] (by simp)
  intro ur e h
  unfold addEventResources
  cases hE : resolveUserKey e with
  | none => exact h
  | some key =>
      dsimp only
      refine foldl_preserves
        (fun (m : List (String × List String)) =>
          (m.map Prod.fst).Nodup ∧ ∀ p ∈ m, p.2 ≠ [])
        _ ?_ _ _
        (foldl_preserves
          (fun (m : List (String × List String)) =>
            (m.map Prod.fst).Nodup ∧ ∀ p ∈ m, p.2 ≠ [])
          _ ?_ _ _ h)
      · intro acc iid hacc
        dsimp only
        by_cases hi : iid ≠ ""
        · simpa [hi] using resInv_updAssoc key _ acc hacc
        · simpa [hi] using hacc
      · intro acc r hacc
        dsimp only
        by_cases ha : resourceKey r ≠ ""
        · simpa [ha] using resInv_updAssoc key _ acc hacc
        · simpa [ha] using hacc

theorem lookup_attributeUserStep_ne (T : Nat) (entry : CostEntry) (u : String)
    (acc : List (String × CostAcc)) (p : String × List String)
    (h : p.1 ≠ u) :
    List.lookup u (attributeUserStep T entry acc p) = List.lookup u acc := by
  unfold attributeUserStep
  split
  · exact lookup_updAssoc_ne _ _ _ _ _ (Ne.symm h)
  · rfl

theorem lookup_foldl_attributeUserStep (T : Nat) (entry : CostEntry)
    (u : String) (res : List String) :
    ∀ (ur : List (String × List String)) (acc : List (String × CostAcc)),
      (ur.map Prod.fst).Nodup → List.lookup u ur = some res → res ≠ [] →
      List.lookup u (ur.foldl (attributeUserStep T entry) acc) =
        some (addUserCost u entry
                (entry.Amount * ((res.length : ℚ) / (T : ℚ))) res.length
                ((List.lookup u acc).getD {})) := by
  intro ur
  induction ur with
  | nil => intro acc _ hmem _; simp [List.lookup] at hmem
  | cons q rest ih =>
      obtain ⟨k, v⟩ := q
      intro acc hnodup hmem hres
      rw [List.foldl_cons]
      by_cases hk : u = k
      · subst hk
        have hv : v = res := by simpa [List.lookup] using hmem
        subst hv
        have hnotin : u ∉ rest.map Prod.fst :=
          (List.nodup_cons.mp (by simpa using hnodup)).1
        rw [lookup_foldl_congr u _ rest
            (fun acc₂ b hb => lookup_attributeUserStep_ne T entry u acc₂ b
              (fun hbu => hnotin (hbu ▸ List.mem_map_of_mem Prod.fst hb)))]
        have hlen : 0 < v.length := List.length_pos.mpr hres
        unfold attributeUserStep
        simp only [hlen, if_pos]
        exact lookup_updAssoc_self _ _ _ _
      · have hb : (u == k) = false := beq_eq_false_iff_ne.mpr hk
        have hmem₂ : List.lookup u rest = some res := by
          simpa [List.lookup, hb] using hmem
        have hnodup₂ : (rest.map Prod.fst).Nodup :=
          (List.nodup_cons.mp (by simpa using hnodup)).2
        rw [ih (attributeUserStep T entry acc (k, v)) hnodup₂ hmem₂ hres,
            lookup_attributeUserStep_ne T entry u acc (k, v) (Ne.symm hk)]

theorem addUserCost_total (key : String) (entry : CostEntry) (uc : ℚ)
    (n : Nat) (c : CostAcc) :
    (addUserCost key entry uc n c).total_cost = c.total_cost + uc := by
  unfold addUserCost
  split <;> rfl

theorem addUserCost_service (key : String) (entry : CostEntry) (uc : ℚ)
    (n : Nat) (c : CostAcc) :
    (addUserCost key entry uc n c).service_costs =
      updAssoc entry.Service 0 (· + uc) c.service_costs := by
  unfold addUserCost
  split <;> rfl

theorem addUserCost_region (key : String) (entry : CostEntry) (uc : ℚ)
    (n : Nat) (c : CostAcc) :
    (addUserCost key entry uc n c).region_costs =
      updAssoc entry.Region 0 (· + uc) c.region_costs := by
  unfold addUserCost
  split <;> rfl

theorem addUserCost_date (key : String) (entry : CostEntry) (uc : ℚ)
    (n : Nat) (c : CostAcc) (h : entry.Date ≠ "") :
    (addUserCost key entry uc n c).cost_by_date =
      updAssoc entry.Date 0 (· + uc) c.cost_by_date := by
  unfold addUserCost
  simp [h]

theorem addUserCost_resource_count (key : String) (entry : CostEntry)
    (uc : ℚ) (n : Nat) (c : CostAcc) :
    (addUserCost key entry uc n c).resource_count = n := by
  unfold addUserCost
  split <;> rfl

theorem finalizeCost_resource_count (c : CostAcc) :
    (finalizeCost c).resource_count = c.resource_count := rfl

/-- The cost-attribution example batch: `userA` touches three distinct
resources, `userB` one. -/
def exUserEvent (user : String) (rs : List String) : Event :=
  { userName := some user, userArn := some ("arn:" ++ user),
    read_only := some false, event_name := "RunInstances",
    event_source := "ec2.amazonaws.com", aws_region := "us-east-1",
    user_agent := "aws-cli/2.0", error_code := none, error_message := none,
    event_time := some 0,
    resources := rs.map (fun n => { resourceName := some n, resourceARN := none }),
    responseInstanceIds := [] }

def exC1Events : List Event :=
  [exUserEvent "userA" ["r1", "r2", "r3"], exUserEvent "userB" ["r4"]]

/-- A single $400 cost line item. -/
def ex400 : CostEntry :=
  { Amount := 400, Service := "AmazonEC2", Region := "us-east-1",
    Date := "2024-01-01" }

/-- Claim C1: each cost line item of amount `A` is allocated
proportionally: when `total_resources` (the sum over users of their
distinct-resource counts, with multiplicity across users) is positive,
each user's total cost and by-service/by-region/by-date accumulators grow
by `A * |resources(user)| / total_resources`, and their resource count is
recorded; when `total_resources` is zero the line item attributes nothing.
In particular, users touching 3 and 1 resources against a single $400 item
end with $300 and $100 and `cost_per_resource` $100 each. -/
theorem attribute_costs_proportional :
    (∀ (events : List Event) (entry : CostEntry)
       (acc : List (String × CostAcc)) (u : String) (res : List String),
       List.lookup u (userResources events) = some res →
       ((0 < totalResources (userResources events) →
         ∃ c, List.lookup u (attributeEntry (userResources events) acc entry) =
                some c ∧
           c.total_cost = ((List.lookup u acc).getD {}).total_cost +
             entry.Amount *
               ((res.length : ℚ) / (totalResources (userResources events) : ℚ)) ∧
           (List.lookup entry.Service c.service_costs).getD 0 =
             (List.lookup entry.Service
               ((List.lookup u acc).getD {}).service_costs).getD 0 +
             entry.Amount *
               ((res.length : ℚ) / (totalResources (userResources events) : ℚ)) ∧
           (List.lookup entry.Region c.region_costs).getD 0 =
             (List.lookup entry.Region
               ((List.lookup u acc).getD {}).region_costs).getD 0 +
             entry.Amount *
               ((res.length : ℚ) / (totalResources (userResources events) : ℚ)) ∧
           (entry.Date ≠ "" →
             (List.lookup entry.Date c.cost_by_date).getD 0 =
               (List.lookup entry.Date
                 ((List.lookup u acc).getD {}).cost_by_date).getD 0 +
               entry.Amount *
                 ((res.length : ℚ) /
                   (totalResources (userResources events) : ℚ))) ∧
           c.resource_count = res.length) ∧
        (totalResources (userResources events) = 0 →
          attributeEntry (userResources events) acc entry = acc))) ∧
    (List.lookup "userA" (attribute_costs_to_users [ex400] exC1Events)).map
        (fun c => (c.total_cost, c.cost_per_resource)) = some (300, 100) ∧
    (List.lookup "userB" (attribute_costs_to_users [ex400] exC1Events)).map
        (fun c => (c.total_cost, c.cost_per_resource)) = some (100, 100) := by
  refine ⟨?_, by with_unfolding_all decide, by with_unfolding_all decide⟩
  intro events entry acc u res hmem
  constructor
  · intro hT
    have hresne : res ≠ [] :=
      (userResources_inv events).2 (u, res) (lookup_some_imp_mem _ _ _ hmem)
    have hnodup := (userResources_inv events).1
    unfold attributeEntry
    dsimp only
    rw [if_pos hT]
    rw [lookup_foldl_attributeUserStep (totalResources (userResources events))
        entry u res (userResources events) acc hnodup hmem hresne]
    refine ⟨_, rfl, addUserCost_total _ _ _ _ _, ?_, ?_, ?_,
            addUserCost_resource_count _ _ _ _ _⟩
    · rw [addUserCost_service, lookup_updAssoc_self]
      simp
    · rw [addUserCost_region, lookup_updAssoc_self]
      simp
    · intro hd
      rw [addUserCost_date _ _ _ _ _ hd, lookup_updAssoc_self]
      simp
  · intro h0
    unfold attributeEntry
    dsimp only
    rw [if_neg (by simp [h0])]

/-- Witness for C1: `userA` (3 of 4 total resources) receives exactly
$300 of the $400 line item. -/
theorem attribute_costs_proportional_witness :
    ∃ c, List.lookup "userA"
        (attributeEntry (userResources exC1Events) [] ex400) = some c ∧
      c.total_cost = 300 := by
  obtain ⟨c, hc, ht, _⟩ :=
    (attribute_costs_proportional.1 exC1Events ex400 [] "userA"
      ["r1", "r2", "r3"] (by with_unfolding_all decide)).1
      (by with_unfolding_all decide)
  refine ⟨c, hc, ?_⟩
  rw [ht]
  with_unfolding_all decide

/-- Claim C9: every user present in the result of
`attribute_costs_to_users` has `resource_count ≥ 1`; a user with no
resource identifiers (absent from `user_resources`) is absent from the
result; and an empty cost batch yields the empty mapping regardless of the
events. -/
theorem attribute_costs_domain :
    (∀ events : List Event, attribute_costs_to_users [] events = []) ∧
    (∀ (cost_data : List CostEntry) (events : List Event) (u : String)
       (c : CostAcc),
       List.lookup u (attribute_costs_to_users cost_data events) = some c →
       1 ≤ c.resource_count) ∧
    (∀ (cost_data : List CostEntry) (events : List Event) (u : String),
       List.lookup u (userResources events) = none →
       List.lookup u (attribute_costs_to_users cost_data events) = none) := by
  refine ⟨fun events => rfl, ?_, ?_⟩
  · intro cost_data events u c hc
    have hall : ∀ p ∈ cost_data.foldl (attributeEntry (userResources events)) [],
        1 ≤ p.2.resource_count := by
      refine foldl_preserves
        (fun (acc : List (String × CostAcc)) => ∀ p ∈ acc, 1 ≤ p.2.resource_count)
        _ ?_ cost_data [] (by simp)
      intro acc entry hacc
      unfold attributeEntry
      dsimp only
      split
      · refine foldl_preserves
          (fun (acc : List (String × CostAcc)) => ∀ p ∈ acc, 1 ≤ p.2.resource_count)
          _ ?_ _ _ hacc
        intro acc₂ p hp
        unfold attributeUserStep
        dsimp only
        split
        · next hlen =>
            refine mem_updAssoc_imp (fun (cc : CostAcc) => 1 ≤ cc.resource_count)
              _ _ _ _ hp ?_ ?_
            · dsimp only
              rw [addUserCost_resource_count]
              exact hlen
            · intro v _
              dsimp only
              rw [addUserCost_resource_count]
              exact hlen
        · exact hp
      · exact hacc
    unfold attribute_costs_to_users at hc
    rw [lookup_map_snd] at hc
    cases hl : List.lookup u
        (cost_data.foldl (attributeEntry (userResources events)) []) with
    | none => rw [hl] at hc; exact absurd hc (by simp)
    | some c₀ =>
        rw [hl] at hc
        have hcc : finalizeCost c₀ = c := by simpa using hc
        subst hcc
        rw [finalizeCost_resource_count]
        exact hall (u, c₀) (lookup_some_imp_mem _ _ _ hl)
  · intro cost_data events u hu
    unfold attribute_costs_to_users
    rw [lookup_map_snd]
    have hfold : List.lookup u
        (cost_data.foldl (attributeEntry (userResources events)) []) = none := by
      rw [lookup_foldl_congr u _ cost_data ?_ []]
      · simp [List.lookup]
      · intro acc entry _
        unfold attributeEntry
        dsimp only
        split
        · rw [lookup_foldl_congr u _ (userResources events) ?_ acc]
          intro acc₂ p hp
          exact lookup_attributeUserStep_ne _ _ _ _ _
            (fst_ne_of_lookup_none u (userResources events) hu p hp)
        · rfl
    rw [hfold]
    rfl

/-- Witness for C9: a user absent from the events receives no entry. -/
theorem attribute_costs_domain_witness :
    List.lookup "nobody" (attribute_costs_to_users [ex400] exC1Events) = none :=
  attribute_costs_domain.2.2 [ex400] exC1Events "nobody"
    (by with_unfolding_all decide)

/-- A cost anomaly as consumed by `check_cost_anomalies` /
`handle_cost_anomaly` (`cost_anomaly_agent.py`): `anomaly_id` is the raw
dict field (absent or present); `impactTotalAmount` models
`impact.get("TotalImpact", {}).get("Amount", 0)` before its default. -/
structure CostAnomaly where
  anomaly_id : Option String
  impactTotalAmount : Option ℚ
  dimension_value : Option String
  status : Option String
  root_cause : List String
deriving DecidableEq

inductive Severity
  | warning
  | error
  | critical
deriving DecidableEq

/-- Severity tiering of `handle_cost_anomaly` (lines 145-150): start at
`warning`, upgrade to `error` past 1,000 and to `critical` past 10,000. -/
def severityFor (total_impact : ℚ) : Severity :=
  let s := Severity.warning
  let s := if total_impact > 1000 then Severity.error else s
  if total_impact > 10000 then Severity.critical else s

/-- The one alert dispatch performed by `handle_cost_anomaly` for a new
anomaly (an SNS notification and a Slack alert are both sent): we record
the anomaly identifier field, the impact amount used in the subject line,
and the Slack severity. -/
structure Alert where
  anomaly_id : Option String
  total_impact : ℚ
  severity : Severity
deriving DecidableEq

def handleAlert (a : CostAnomaly) : Alert :=
  let total_impact := a.impactTotalAmount.getD 0
  { anomaly_id := a.anomaly_id, total_impact := total_impact,
    severity := severityFor total_impact }

/-- The agent state touched by the dedup logic: the finding buffer
`detected_anomalies` and the log of dispatched alerts. -/
structure CostAgentState where
  detected_anomalies : List CostAnomaly
  alerts : List Alert
deriving DecidableEq

def initialCostAgentState : CostAgentState :=
  { detected_anomalies := [], alerts := [] }

/-- Python `a.get("anomaly_id") == anomaly_id` for a buffered anomaly `a`
and the current lookup key: `None == key` is `False` in Python, so a
buffered anomaly matches only when its identifier field is present and
equal to the key. -/
def storedMatches (b : CostAnomaly) (key : String) : Bool :=
  match b.anomaly_id with
  | some s => s = key
  | none => false

/-- The duplicate check of `check_cost_anomalies` (line 117), with the
lookup key `anomaly.get("anomaly_id", "")` (line 114). -/
def isDupAnomaly (st : CostAgentState) (a : CostAnomaly) : Bool :=
  let key := a.anomaly_id.getD ""
  st.detected_anomalies.any (fun b => storedMatches b key)

/-- The per-anomaly body of `check_cost_anomalies` (lines 113-122): a new
anomaly is appended to the finding buffer and handled (alert dispatched);
a duplicate is skipped. -/
def processAnomaly (st : CostAgentState) (a : CostAnomaly) : CostAgentState :=
  if isDupAnomaly st a then st
  else { detected_anomalies := st.detected_anomalies ++ [a],
         alerts := st.alerts ++ [handleAlert a] }

/-- One `check_cost_anomalies` cycle over a fetched anomaly batch. -/
def check_cost_anomalies (st : CostAgentState) (batch : List CostAnomaly) :
    CostAgentState :=
  batch.foldl processAnomaly st

/-- A sequence of polling cycles, each over one batch. -/
def runCostBatches (st : CostAgentState) (batches : List (List CostAnomaly)) :
    CostAgentState :=
  batches.foldl check_cost_anomalies st

theorem storedMatches_eq (b : CostAnomaly) (v : String) :
    storedMatches b v = (b.anomaly_id == some v) := by
  cases hb : b.anomaly_id with
  | none => simp [storedMatches, hb]
  | some s => by_cases h : s = v <;> simp [storedMatches, hb, h]

theorem handleAlert_id (a : CostAnomaly) :
    (handleAlert a).anomaly_id = a.anomaly_id := rfl

theorem costInv_processAnomaly (v : String) (st : CostAgentState)
    (a : CostAnomaly)
    (h : st.detected_anomalies.countP (fun b => b.anomaly_id == some v) ≤ 1 ∧
         st.alerts.countP (fun al => al.anomaly_id == some v) ≤
           st.detected_anomalies.countP (fun b => b.anomaly_id == some v)) :
    (processAnomaly st a).detected_anomalies.countP
        (fun b => b.anomaly_id == some v) ≤ 1 ∧
    (processAnomaly st a).alerts.countP (fun al => al.anomaly_id == some v) ≤
      (processAnomaly st a).detected_anomalies.countP
        (fun b => b.anomaly_id == some v) := by
  unfold processAnomaly
  by_cases hd : isDupAnomaly st a
  · simpa [hd] using h
  · simp only [hd, if_neg, Bool.false_eq_true, not_false_iff]
    simp only [List.countP_append]
    by_cases pa : (a.anomaly_id == some v) = true
    · have hav : a.anomaly_id = some v := by
        cases ha : a.anomaly_id <;> simp [ha] at pa ⊢
        exact pa
      have hkey : a.anomaly_id.getD "" = v := by simp [hav]
      have h0 : st.detected_anomalies.countP
          (fun b => b.anomaly_id == some v) = 0 := by
        rw [List.countP_eq_zero]
        intro b hb
        have := (List.any_eq_false.mp (by simpa [isDupAnomaly, hkey] using hd)) b hb
        simpa [storedMatches_eq] using this
      have ha0 : st.alerts.countP (fun al => al.anomaly_id == some v) = 0 :=
        Nat.le_zero.mp (h0 ▸ h.2)
      simp [h0, ha0, pa, List.countP_cons, handleAlert_id]
    · have pa₂ : ((handleAlert a).anomaly_id == some v) = false := by
        rw [handleAlert_id]
        simpa using pa
      simp only [List.countP_cons, List.countP_nil, pa₂]
      simpa [pa] using h

/-- Claim C5: an anomaly bearing an identifier is treated as new iff that
identifier is absent from the identifiers in the finding buffer (a
duplicate adds no buffer entry and dispatches no alert), and across any
sequence of polling cycles starting from the fresh agent state, at most
one buffer entry and at most one alert ever exist per identifier value. -/
theorem cost_anomaly_dedup :
    (∀ (st : CostAgentState) (a : CostAnomaly) (v : String),
       a.anomaly_id = some v →
       ((∃ b ∈ st.detected_anomalies, b.anomaly_id = some v) →
          processAnomaly st a = st) ∧
       ((∀ b ∈ st.detected_anomalies, b.anomaly_id ≠ some v) →
          processAnomaly st a =
            { detected_anomalies := st.detected_anomalies ++ [a],
              alerts := st.alerts ++ [handleAlert a] })) ∧
    (∀ (batches : List (List CostAnomaly)) (v : String),
       (runCostBatches initialCostAgentState batches).detected_anomalies.countP
           (fun b => b.anomaly_id == some v) ≤ 1 ∧
       (runCostBatches initialCostAgentState batches).alerts.countP
           (fun al => al.anomaly_id == some v) ≤ 1) := by
  constructor
  · intro st a v hav
    have hkey : a.anomaly_id.getD "" = v := by simp [hav]
    constructor
    · intro hex
      obtain ⟨b, hb, hbid⟩ := hex
      have hdup : isDupAnomaly st a = true := by
        simp only [isDupAnomaly, hkey, List.any_eq_true]
        exact ⟨b, hb, by simp [storedMatches_eq, hbid]⟩
      simp [processAnomaly, hdup]
    · intro hall
      have hdup : isDupAnomaly st a = false := by
        simp only [isDupAnomaly, hkey, List.any_eq_false]
        intro b hb
        simp only [storedMatches_eq]
        simpa using hall b hb
      simp [processAnomaly, hdup]
  · intro batches v
    have hinv := foldl_preserves
      (fun (st : CostAgentState) =>
        st.detected_anomalies.countP (fun b => b.anomaly_id == some v) ≤ 1 ∧
        st.alerts.countP (fun al => al.anomaly_id == some v) ≤
          st.detected_anomalies.countP (fun b => b.anomaly_id == some v))
      check_cost_anomalies
      (fun st batch hst =>
        foldl_preserves _ processAnomaly
          (fun s a hs => costInv_processAnomaly v s a hs) batch st hst)
      batches initialCostAgentState (by simp [initialCostAgentState])
    exact ⟨hinv.1, le_trans hinv.2 hinv.1⟩

def exAnom (id : Option String) : CostAnomaly :=
  { anomaly_id := id, impactTotalAmount := some 500,
    dimension_value := some "AmazonEC2", status := some "OPEN",
    root_cause := [] }

/-- Witness for C5: re-presenting the identifier `an-1` leaves the state
unchanged. -/
theorem cost_anomaly_dedup_witness :
    processAnomaly
      { detected_anomalies := [exAnom (some "an-1")],
        alerts := [handleAlert (exAnom (some "an-1"))] }
      (exAnom (some "an-1")) =
    { detected_anomalies := [exAnom (some "an-1")],
      alerts := [handleAlert (exAnom (some "an-1"))] } :=
  (cost_anomaly_dedup.1 _ (exAnom (some "an-1")) "an-1" rfl).1
    ⟨exAnom (some "an-1"), by simp, rfl⟩

/-- Claim C6: the severity attached to a new anomaly's alert is exactly
`critical` for impact above 10,000, `error` for impact in (1,000, 10,000],
and `warning` at or below 1,000; and every new anomaly produces exactly
one alert-dispatch record, whatever the severity — severity only enters
the alert's fields. -/
theorem cost_anomaly_severity :
    (∀ A : ℚ,
       (10000 < A → severityFor A = Severity.critical) ∧
       (1000 < A → A ≤ 10000 → severityFor A = Severity.error) ∧
       (A ≤ 1000 → severityFor A = Severity.warning)) ∧
    (∀ (st : CostAgentState) (a : CostAnomaly),
       isDupAnomaly st a = false →
       (processAnomaly st a).alerts =
         st.alerts ++
           [{ anomaly_id := a.anomaly_id,
              total_impact := a.impactTotalAmount.getD 0,
              severity := severityFor (a.impactTotalAmount.getD 0) }]) := by
  constructor
  · intro A
    refine ⟨?_, ?_, ?_⟩
    · intro h10
      have h1 : (1000 : ℚ) < A := by linarith
      simp [severityFor, h10, h1]
    · intro h1 hle
      have h10 : ¬ (10000 : ℚ) < A := by linarith
      simp [severityFor, h1, h10]
    · intro hle
      have h1 : ¬ (1000 : ℚ) < A := by linarith
      have h10 : ¬ (10000 : ℚ) < A := by linarith
      simp [severityFor, h1, h10]
  · intro st a h
    simp [processAnomaly, h, handleAlert]

/-- Witness for C6 at the three tiers. -/
theorem cost_anomaly_severity_witness :
    severityFor 20000 = Severity.critical ∧
    severityFor 5000 = Severity.error ∧
    severityFor 500 = Severity.warning :=
  ⟨(cost_anomaly_severity.1 20000).1 (by norm_num),
   (cost_anomaly_severity.1 5000).2.1 (by norm_num) (by norm_num),
   (cost_anomaly_severity.1 500).2.2 (by norm_num)⟩

def exNoIdAnomaly : CostAnomaly :=
  { anomaly_id := none, impactTotalAmount := some 50,
    dimension_value := some "AmazonS3", status := some "OPEN",
    root_cause := [] }

/-- Counterexample to claim C10: two anomalies with a missing identifier
field are both processed — the first does not suppress the second, because
a buffered `None` identifier never equals the lookup key `""` — so the
batch yields two finding-buffer entries and two alert dispatches, not
one. -/
theorem missing_id_dedup_counterexample :
    (check_cost_anomalies initialCostAgentState
       [exNoIdAnomaly, exNoIdAnomaly]).detected_anomalies.length = 2 ∧
    (check_cost_anomalies initialCostAgentState
       [exNoIdAnomaly, exNoIdAnomaly]).alerts.length = 2 := by
  with_unfolding_all decide

/-- Claim C10 (amended): anomalies whose identifier field is missing or
empty all share the dedup lookup key `""`, but such an anomaly is
suppressed (no buffer entry, no alert) if and only if the buffer already
holds an anomaly whose identifier field is present and equal to the empty
string — an anomaly buffered with a missing identifier field suppresses
nothing. -/
theorem missing_id_dedup_amended :
    ∀ (st : CostAgentState) (a : CostAnomaly),
      a.anomaly_id = none ∨ a.anomaly_id = some "" →
      a.anomaly_id.getD "" = "" ∧
      isDupAnomaly st a =
        st.detected_anomalies.any (fun b => b.anomaly_id == some "") ∧
      (isDupAnomaly st a = true → processAnomaly st a = st) ∧
      (isDupAnomaly st a = false →
        processAnomaly st a =
          { detected_anomalies := st.detected_anomalies ++ [a],
            alerts := st.alerts ++ [handleAlert a] }) := by
  intro st a hid
  have hkey : a.anomaly_id.getD "" = "" := by
    rcases hid with h | h <;> simp [h]
  refine ⟨hkey, ?_, ?_, ?_⟩
  · simp [isDupAnomaly, hkey, storedMatches_eq]
  · intro h
    simp [processAnomaly, h]
  · intro h
    simp [processAnomaly, h]

/-- Witness for the amended C10: once an anomaly with a present-but-empty
identifier is buffered, a missing-identifier anomaly is suppressed. -/
theorem missing_id_dedup_amended_witness :
    processAnomaly
      { detected_anomalies := [exAnom (some "")], alerts := [] }
      exNoIdAnomaly =
    { detected_anomalies := [exAnom (some "")], alerts := [] } :=
  (missing_id_dedup_amended
      { detected_anomalies := [exAnom (some "")], alerts := [] }
      exNoIdAnomaly (Or.inl rfl)).2.2.1
    (by with_unfolding_all decide)

/-- The observable outcome of one `check_cloudtrail_events` cycle as far as
the checkpoint is concerned: the fetch-and-process body either raises
somewhere (the exception is re-raised at line 107 and caught by
`monitor_continuously`, lines 48-50), or completes with the fetched event
list (possibly empty). -/
inductive CycleResult
  | failed
  | completed (events : List Event)
deriving DecidableEq

/-- The checkpoint transition of one `check_cloudtrail_events` cycle
(`cloudtrail_monitoring_agent.py`, lines 52-107): `end_time` is the clock
value `now` read at cycle start; on the empty-events early return
(line 74) and after successful processing (line 101) `last_check_time`
becomes `now`; when any step raises, it is left unchanged. -/
def checkCloudtrailCheckpoint (cp : Option Int) (now : Int)
    (r : CycleResult) : Option Int :=
  match r with
  | .failed => cp
  | .completed _ => some now

/-- A run of consecutive polling cycles of `monitor_continuously`: each
cycle observes the clock and one outcome. -/
def runCloudtrailCycles (cp : Option Int) :
    List (Int × CycleResult) → Option Int
  | [] => cp
  | (now, r) :: rest =>
      runCloudtrailCycles (checkCloudtrailCheckpoint cp now r) rest

/-- Checkpoint order: a set checkpoint stays set and never decreases. -/
def cpLE (a b : Option Int) : Prop :=
  ∀ t, a = some t → ∃ t₂, b = some t₂ ∧ t ≤ t₂

/-- Claim C4: a failed cycle leaves the checkpoint exactly unchanged; a
cycle whose clock is at or after the current checkpoint never decreases
it; and over any run of cycles with non-decreasing clocks, all at or after
the initial checkpoint, the checkpoint is monotonically non-decreasing. -/
theorem checkpoint_monotone :
    (∀ (cp : Option Int) (now : Int),
       checkCloudtrailCheckpoint cp now CycleResult.failed = cp) ∧
    (∀ (cp : Option Int) (now : Int) (r : CycleResult),
       (∀ t, cp = some t → t ≤ now) →
       cpLE cp (checkCloudtrailCheckpoint cp now r)) ∧
    (∀ (cp : Option Int) (trace : List (Int × CycleResult)),
       (∀ t, cp = some t → ∀ p ∈ trace, t ≤ p.1) →
       List.Pairwise (fun p q => p.1 ≤ q.1) trace →
       cpLE cp (runCloudtrailCycles cp trace)) := by
  refine ⟨fun cp now => rfl, ?_, ?_⟩
  · intro cp now r hle t ht
    cases r with
    | failed => exact ⟨t, ht, le_refl t⟩
    | completed evs => exact ⟨now, rfl, hle t ht⟩
  · intro cp trace
    induction trace generalizing cp with
    | nil => intro _ _ t ht; exact ⟨t, ht, le_refl t⟩
    | cons p rest ih =>
        obtain ⟨now, r⟩ := p
        intro hclock hpair
        have hpair₂ := (List.pairwise_cons.mp hpair).2
        have hnow := (List.pairwise_cons.mp hpair).1
        cases r with
        | failed =>
            exact ih cp
              (fun t ht q hq => hclock t ht q (List.mem_cons_of_mem _ hq))
              hpair₂
        | completed evs =>
            intro t ht
            have hres := ih (some now)
              (fun t₂ ht₂ q hq => by
                have : t₂ = now := by simpa using ht₂.symm
                exact this ▸ hnow q hq)
              hpair₂ now rfl
            obtain ⟨t₂, hfin, hle⟩ := hres
            refine ⟨t₂, hfin, le_trans ?_ hle⟩
            exact hclock t ht (now, CycleResult.completed evs)
              (List.mem_cons_self _ _)

/-- Witness for C4: a failed cycle at clock 7 keeps checkpoint 5; a
successful empty cycle advances it. -/
theorem checkpoint_monotone_witness :
    checkCloudtrailCheckpoint (some 5) 7 CycleResult.failed = some 5 ∧
    cpLE (some 5)
      (checkCloudtrailCheckpoint (some 5) 7 (CycleResult.completed [])) :=
  ⟨checkpoint_monotone.1 (some 5) 7,
   checkpoint_monotone.2.1 (some 5) 7 (CycleResult.completed [])
     (by intro t ht; simp at ht; omega)⟩

/-- The interaction of `fetch_cloudtrail_logs` with its S3 transport: the
underlying boto3 calls either produce the records for the window, raise a
`ClientError` (network/auth failure), or raise some other exception. -/
inductive FetchOutcome
  | records (evs : List Event)
  | clientError (msg : String)
  | otherError (msg : String)
deriving DecidableEq

/-- What `fetch_cloudtrail_logs` actually returns (`cloudtrail_tools.py`,
lines 84-91): the records on success — and `[]` for BOTH exception paths,
since the `except ClientError` and `except Exception` clauses print the
error and `return []` instead of re-raising. -/
def fetch_cloudtrail_logs (outcome : FetchOutcome) : List Event :=
  match outcome with
  | .records evs => evs
  | .clientError _ => []
  | .otherError _ => []

/-- Claim C8 is violated by the code: a transport failure (`ClientError`,
e.g. an auth failure) makes `fetch_cloudtrail_logs` return `[]`, the very
value that means "no new records", so the caller cannot distinguish the
two — and `check_cloudtrail_events` then advances its checkpoint exactly
as it does for an empty window. -/
theorem fetch_transport_error_swallowed :
    (∀ msg, fetch_cloudtrail_logs (FetchOutcome.clientError msg) =
            fetch_cloudtrail_logs (FetchOutcome.records [])) ∧
    (∀ (cp : Option Int) (now : Int),
       checkCloudtrailCheckpoint cp now
         (CycleResult.completed
           (fetch_cloudtrail_logs (FetchOutcome.clientError "AccessDenied"))) =
       some now) :=
  ⟨fun _ => rfl, fun _ _ => rfl⟩
